import Mathlib

/-
Shallow embedding of the pydbs-analytic repository (src/script/database.py,
src/script/misc.py, src/main.py).

The two SQLite databases are modelled as lists of rows inside one record
`DBState`.  Nullable SQL columns become `Option Nat`.  SQL timestamps are
modelled as integer epoch seconds; SQLite's `date()` truncation becomes floor
division by the number of seconds in a day.

External collaborators (the `misc` module's faker/lorem generators and
Python's `random`) are modelled as explicit oracle parameters:
  * name/sentence/description generators become `Nat → String` streams
    (one value per generation step, mirroring one call of `misc.get_name`
    etc. per generated row);
  * `random.choice(lst)` becomes `random_choice lst r = lst[r % lst.length]?`,
    which is `none` exactly when the list is empty (Python raises
    `IndexError: cannot choose from an empty sequence` there);
  * `random.randint(0, 3)` becomes `r % 4` for an oracle value `r`;
  * `misc.get_random_date(lo, hi)` becomes an oracle
    `Int → Int → Nat → Int` applied to the requested window bounds and a
    call counter; faker's contract (result inside the window) is taken as a
    hypothesis where a theorem needs it.

Operations that the Python code lets crash (a `sqlite3.OperationalError`
from a malformed `INSERT ... VALUES ;` built from an empty row list, the
`IndexError` from `random.choice` on an empty id list, or the failing
`CREATE TABLE` when tables already exist) are modelled as `Except.error`
results; `Except.error` carries no state, matching the fact that the failed
statement mutates nothing.
-/

/- ## Data model (schema of DBInterface.create_tables) -/

/-- Row of `main.users (id, email, login)`. -/
structure UserRow where
  id : Nat
  email : String
  login : String
deriving DecidableEq, Repr

/-- Row of `main.blog (id, owner_id, name, description)`; `owner_id` is a
nullable foreign key into `users`. -/
structure BlogRow where
  id : Nat
  owner_id : Option Nat
  name : String
  description : String
deriving DecidableEq, Repr

/-- Row of `main.post (id, header, text, author_id, blog_id)`. -/
structure PostRow where
  id : Nat
  header : String
  text : String
  author_id : Option Nat
  blog_id : Option Nat
deriving DecidableEq, Repr

/-- Row of `main.comment (id, text, author_id, post_id)`. -/
structure CommentRow where
  id : Nat
  text : String
  author_id : Option Nat
  post_id : Option Nat
deriving DecidableEq, Repr

/-- Row of `logging.logs (datetime, user_id, space_type_id, event_type_id)`.
The surrogate `id` primary key is never read by any query and is omitted. -/
structure LogRow where
  datetime : Int
  user_id : Option Nat
  space_type_id : Option Nat
  event_type_id : Option Nat
deriving DecidableEq, Repr

/-- The two attached database files as one state, plus a flag recording
whether `create_tables` has run (a fresh `.db` file has no tables). -/
structure DBState where
  users : List UserRow
  blogs : List BlogRow
  posts : List PostRow
  comments : List CommentRow
  event_types : List (Nat × String)
  space_types : List (Nat × String)
  logs : List LogRow
  tables_created : Bool
deriving DecidableEq, Repr

/-- A fresh pair of database files: no tables, no rows. -/
def initialState : DBState :=
  { users := [], blogs := [], posts := [], comments := [],
    event_types := [], space_types := [], logs := [], tables_created := false }

/-- Seconds per day; used to model the relative date strings `-2d`, `+1d`,
`+4d`, `-5d`, `+5d` passed to `misc.get_random_date`. -/
def day : Int := 86400

/-- SQLite `date(datetime)`: truncation of a timestamp to its calendar date,
modelled as floor division of epoch seconds by the day length. -/
def dateOf (t : Int) : Int := t.fdiv day

/-- SQLite rowid assignment for `INTEGER PRIMARY KEY`: the next id is one
more than the largest existing id. -/
def nextId (ids : List Nat) : Nat := ids.foldr max 0 + 1

/-- Python `random.choice(lst)`: a uniformly chosen element of `lst`, driven
by the oracle value `r`; `none` exactly when `lst` is empty, where Python
raises `IndexError`. -/
def random_choice (lst : List Nat) (r : Nat) : Option Nat :=
  lst[r % lst.length]?

/- ## Schema Manager (DBInterface.create_tables) -/

/-- The seed `INSERT INTO logging.event_type (name) VALUES ("login"),
("comment"), ("create_post"), ("delete_post"), ("logout")`; SQLite assigns
rowids 1..5 in listed order. -/
def seed_event_types : List (Nat × String) :=
  [(1, "login"), (2, "comment"), (3, "create_post"), (4, "delete_post"),
   (5, "logout")]

/-- The seed `INSERT INTO logging.space_type (name) VALUES ("global"),
("blog"), ("post")`; SQLite assigns rowids 1..3 in listed order. -/
def seed_space_types : List (Nat × String) :=
  [(1, "global"), (2, "blog"), (3, "post")]

/-- DBInterface.create_tables: one `executescript` creating the seven tables
and inserting the two fixed lookup tables.  If the tables already exist the
very first `CREATE TABLE main.users` statement fails with
`sqlite3.OperationalError` before anything is mutated. -/
def create_tables (db : DBState) : Except String DBState :=
  if db.tables_created then
    Except.error "sqlite3.OperationalError: table users already exists"
  else
    Except.ok { db with
      tables_created := true,
      event_types := seed_event_types,
      space_types := seed_space_types }

/- ## Fill Engine -/

/-- DBInterface.fill_users: inserts `count` rows, one per call of
`misc.get_name()` (the `names` oracle), with
`email = login.lower().replace(" ", "_") + "@example.com"`.
With `count = 0` the generated SQL is `INSERT INTO main.users (email, login)
VALUES ;`, a syntax error raised by `cursor.execute`. -/
def fill_users (db : DBState) (count : Nat) (names : Nat → String) :
    Except String DBState :=
  if count = 0 then
    Except.error "sqlite3.OperationalError: syntax error"
  else
    let base := nextId (db.users.map (fun u => u.id))
    let rows := (List.range count).map (fun i =>
      { id := base + i,
        email := ((names i).toLower.replace " " "_") ++ "@example.com",
        login := names i : UserRow })
    Except.ok { db with users := db.users ++ rows }

/-- DBInterface.fill_blogs: reads the fresh user id list
(`__get_all_ids__("main.users")`), then builds `count` rows whose `owner_id`
is `random.choice(user_ids)`.  With no users and `count ≥ 1` the first
`random.choice` raises `IndexError`; with `count = 0` the empty `VALUES`
clause raises `sqlite3.OperationalError`. -/
def fill_blogs (db : DBState) (count : Nat) (names descs : Nat → String)
    (rands : Nat → Nat) : Except String DBState :=
  let user_ids := db.users.map (fun u => u.id)
  if user_ids = [] ∧ 0 < count then
    Except.error "IndexError: cannot choose from an empty sequence"
  else if count = 0 then
    Except.error "sqlite3.OperationalError: syntax error"
  else
    let base := nextId (db.blogs.map (fun b => b.id))
    let rows := (List.range count).map (fun i =>
      { id := base + i,
        owner_id := random_choice user_ids (rands i),
        name := names i,
        description := descs i : BlogRow })
    Except.ok { db with blogs := db.blogs ++ rows }

/-- DBInterface.fill_posts: reads fresh user and blog id lists, then per
iteration samples an author and a blog, emits one post row and one
companion log row `(get_random_date('-2d','now'), user_id, 2, 3)` — columns
`(datetime, user_id, space_type_id, event_type_id)`, i.e. space_type 2
("blog") and event_type 3 ("create_post") — and, when
`random.randint(0, 3) == 1`, an extra log row
`(get_random_date('+1d','+4d'), user_id, 2, 4)` (event_type 4,
"delete_post").  Empty parents raise `IndexError`; `count = 0` raises
`sqlite3.OperationalError` on the empty `VALUES` clause. -/
def fill_posts (db : DBState) (count : Nat) (now : Int)
    (heads texts : Nat → String) (randsU randsB rint : Nat → Nat)
    (dateOracle : Int → Int → Nat → Int) : Except String DBState :=
  let user_ids := db.users.map (fun u => u.id)
  let blog_ids := db.blogs.map (fun b => b.id)
  if (user_ids = [] ∨ blog_ids = []) ∧ 0 < count then
    Except.error "IndexError: cannot choose from an empty sequence"
  else if count = 0 then
    Except.error "sqlite3.OperationalError: syntax error"
  else
    let base := nextId (db.posts.map (fun p => p.id))
    let newPosts := (List.range count).map (fun i =>
      { id := base + i,
        header := heads i,
        text := texts i,
        author_id := random_choice user_ids (randsU i),
        blog_id := random_choice blog_ids (randsB i) : PostRow })
    let newLogs := (List.range count).flatMap (fun i =>
      { datetime := dateOracle (now - 2 * day) now (2 * i),
        user_id := random_choice user_ids (randsU i),
        space_type_id := some 2,
        event_type_id := some 3 : LogRow } ::
      (if rint i % 4 = 1 then
        [{ datetime := dateOracle (now + day) (now + 4 * day) (2 * i + 1),
           user_id := random_choice user_ids (randsU i),
           space_type_id := some 2,
           event_type_id := some 4 : LogRow }]
      else []))
    Except.ok { db with posts := db.posts ++ newPosts,
                        logs := db.logs ++ newLogs }

/-- DBInterface.fill_comments: reads fresh user and post id lists, then per
iteration samples an author and a post for the comment row and emits one
companion log row `(get_random_date('now','+1d'), random.choice(user_ids),
3, 2)` whose user is resampled independently of the comment's author
(space_type 3 "post", event_type 2 "comment").  Empty parents raise
`IndexError`; `count = 0` raises `sqlite3.OperationalError`. -/
def fill_comments (db : DBState) (count : Nat) (now : Int)
    (descs : Nat → String) (randsU randsP randsL : Nat → Nat)
    (dateOracle : Int → Int → Nat → Int) : Except String DBState :=
  let user_ids := db.users.map (fun u => u.id)
  let post_ids := db.posts.map (fun p => p.id)
  if (user_ids = [] ∨ post_ids = []) ∧ 0 < count then
    Except.error "IndexError: cannot choose from an empty sequence"
  else if count = 0 then
    Except.error "sqlite3.OperationalError: syntax error"
  else
    let base := nextId (db.comments.map (fun c => c.id))
    let newComments := (List.range count).map (fun i =>
      { id := base + i,
        text := descs i,
        author_id := random_choice user_ids (randsU i),
        post_id := random_choice post_ids (randsP i) : CommentRow })
    let newLogs := (List.range count).map (fun i =>
      { datetime := dateOracle now (now + day) i,
        user_id := random_choice user_ids (randsL i),
        space_type_id := some 3,
        event_type_id := some 2 : LogRow })
    Except.ok { db with comments := db.comments ++ newComments,
                        logs := db.logs ++ newLogs }

/-- DBInterface.fill_logs_login_logout: reads the fresh user id list and
inserts one log row per existing user — `(get_random_date('-5d','now'),
user_id, 1, 1)` when `is_login`, else `(get_random_date('now','+5d'),
user_id, 1, 5)` (space_type 1 "global"; event_type 1 "login" / 5 "logout").
With no users the `VALUES` clause is empty and `cursor.execute` raises
`sqlite3.OperationalError`. -/
def fill_logs_login_logout (db : DBState) (is_login : Bool) (now : Int)
    (dateOracle : Int → Int → Nat → Int) : Except String DBState :=
  let user_ids := db.users.map (fun u => u.id)
  if user_ids = [] then
    Except.error "sqlite3.OperationalError: syntax error"
  else
    let lo := if is_login then now - 5 * day else now
    let hi := if is_login then now else now + 5 * day
    let etype : Nat := if is_login then 1 else 5
    let newLogs := user_ids.enum.map (fun pr =>
      { datetime := dateOracle lo hi pr.1,
        user_id := some pr.2,
        space_type_id := some 1,
        event_type_id := some etype : LogRow })
    Except.ok { db with logs := db.logs ++ newLogs }

/-- The `--actions-count n` loop of `src/main.py` (fill mode): `n`
repetitions of `fill_logs_login_logout(True)` followed by
`fill_logs_login_logout(False)`. -/
def fill_login_logout_pairs (db : DBState) (n : Nat) (now : Int)
    (dateOracle : Int → Int → Nat → Int) : Except String DBState :=
  match n with
  | 0 => Except.ok db
  | Nat.succ m =>
    match fill_logs_login_logout db true now dateOracle with
    | Except.error e => Except.error e
    | Except.ok db1 =>
      match fill_logs_login_logout db1 false now dateOracle with
      | Except.error e => Except.error e
      | Except.ok db2 => fill_login_logout_pairs db2 m now dateOracle

/- ## Report Engine -/

/-- Result row of `get_user_comments_info`:
`(Login, Header, Author, Count)` where `Author` is a scalar subquery and may
be SQL NULL. -/
abbrev CommentsReportRow := String × String × Option String × Nat

/-- The scalar subquery
`SELECT usr_in.login FROM main.users AS usr_in WHERE usr_in.id == pst.author_id`:
the first matching login, or NULL when `pst.author_id` is NULL or matches no
user. -/
def postAuthorLogin (db : DBState) (pst : PostRow) : Option String :=
  (db.users.find? (fun u => pst.author_id == some u.id)).map
    (fun u => u.login)

/-- The scalar subquery
`SELECT count(*) FROM main.comment AS cmt_in WHERE cmt_in.post_id == cmt.post_id`:
SQL `NULL == x` never matches, so a NULL `post_id` counts nothing. -/
def commentCount (db : DBState) (pid : Option Nat) : Nat :=
  match pid with
  | none => 0
  | some p => db.comments.countP (fun c => c.post_id == some p)

/-- The rows that one outer `comment` row contributes to
`get_user_comments_info`: the inner joins
`JOIN main.users AS usr ON cmt.author_id = usr.id` and
`JOIN main.post AS pst ON cmt.post_id = pst.id` (a NULL key matches
nothing), then the filter `WHERE usr.login == "{username}"`. -/
def commentRows (db : DBState) (username : String) (cmt : CommentRow) :
    List CommentsReportRow :=
  (db.users.filter (fun u => cmt.author_id == some u.id)).flatMap (fun usr =>
    (db.posts.filter (fun p => cmt.post_id == some p.id)).flatMap (fun pst =>
      if usr.login == username then
        [(usr.login, pst.header, postAuthorLogin db pst,
          commentCount db cmt.post_id)]
      else []))

/-- DBInterface.get_user_comments_info: the comment table is scanned and
each comment row contributes its join results. -/
def get_user_comments_info (db : DBState) (username : String) :
    List CommentsReportRow :=
  db.comments.flatMap (commentRows db username)

/-- Result row of `get_user_actions_info`: `(Date, Logins, Logouts, Actions)`. -/
abbrev ActionsReportRow := Int × Nat × Nat × Nat

/-- The Actions column condition `lgs.space_type_id > 1` (SQL NULL compares
to nothing). -/
def isActionRow (l : LogRow) : Bool :=
  match l.space_type_id with
  | none => false
  | some s => decide (1 < s)

/-- DBInterface.get_user_actions_info: the scalar subquery
`SELECT usr.id FROM main.users WHERE usr.login == "{username}" LIMIT 1`
resolves the login to the first matching user id (NULL when absent, in
which case `WHERE lgs.user_id == NULL` filters out every log row); the
remaining rows are grouped by `date(lgs.datetime)` with the three
conditional counts. -/
def get_user_actions_info (db : DBState) (username : String) :
    List ActionsReportRow :=
  match db.users.find? (fun u => u.login == username) with
  | none => []
  | some usr =>
    let rows := db.logs.filter (fun l => l.user_id == some usr.id)
    ((rows.map (fun l => dateOf l.datetime)).dedup).map (fun d =>
      let sub := rows.filter (fun l => dateOf l.datetime == d)
      (d,
       sub.countP (fun l => l.event_type_id == some 1),
       sub.countP (fun l => l.event_type_id == some 5),
       sub.countP isActionRow))

/- ## Spec-side description of the comments report (for the refinement
     claim C1) -/

/-- Specification-style description of one row of the comments report,
following the spec's words: for a comment authored by the queried user, the
row is `(login, post_header, post_author_login, total_comment_count_on_that
post)`, the count taken over all comments referencing that post regardless
of author; a comment whose author or post cannot be resolved produces
nothing. -/
def specCommentsRow (db : DBState) (username : String) (c : CommentRow) :
    Option CommentsReportRow :=
  match db.users.find? (fun u => c.author_id == some u.id),
        db.posts.find? (fun p => c.post_id == some p.id) with
  | some u, some p =>
      if u.login == username then
        some (u.login, p.header, postAuthorLogin db p,
              db.comments.countP (fun c2 => c2.post_id == some p.id))
      else none
  | _, _ => none

/-- A comment row is authored by a user carrying the given login. -/
def commentByUser (db : DBState) (login : String) (c : CommentRow) : Bool :=
  db.users.any (fun u => (c.author_id == some u.id) && (u.login == login))

/-- Both inner joins of `get_user_comments_info` succeed for this comment:
its `author_id` and `post_id` are non-NULL and reference existing rows. -/
def joinable (db : DBState) (c : CommentRow) : Bool :=
  db.users.any (fun u => c.author_id == some u.id) &&
  db.posts.any (fun p => c.post_id == some p.id)

/- ## Concrete states and oracles used by witnesses and counterexamples -/

/-- The state right after `create_tables` on fresh files: tables and seed
rows exist, no data rows. -/
def emptyTablesDB : DBState :=
  { initialState with
    tables_created := true,
    event_types := seed_event_types,
    space_types := seed_space_types }

/-- A state with two users and nothing else. -/
def usersOnlyDB : DBState :=
  { emptyTablesDB with
    users := [{ id := 1, email := "alice@example.com", login := "alice" },
              { id := 2, email := "bob@example.com", login := "bob" }] }

/-- A small fully populated state: two users, one blog, one post authored
by bob, three comments on that post (two by alice), and three log rows for
alice (a login on day 0, a comment action and a logout on day 1). -/
def sampleDB : DBState :=
  { emptyTablesDB with
    users := [{ id := 1, email := "alice@example.com", login := "alice" },
              { id := 2, email := "bob@example.com", login := "bob" }],
    blogs := [{ id := 1, owner_id := some 2, name := "Blog",
                description := "about" }],
    posts := [{ id := 1, header := "First", text := "body",
                author_id := some 2, blog_id := some 1 }],
    comments := [{ id := 1, text := "nice", author_id := some 1,
                   post_id := some 1 },
                 { id := 2, text := "again", author_id := some 1,
                   post_id := some 1 },
                 { id := 3, text := "thanks", author_id := some 2,
                   post_id := some 1 }],
    logs := [{ datetime := 100, user_id := some 1, space_type_id := some 1,
               event_type_id := some 1 },
             { datetime := 90000, user_id := some 1, space_type_id := some 2,
               event_type_id := some 2 },
             { datetime := 100000, user_id := some 1, space_type_id := some 1,
               event_type_id := some 5 }] }

/-- The sample state extended with two unresolvable comments by alice: one
with a NULL `post_id` and one referencing a post id that does not exist. -/
def danglingDB : DBState :=
  { sampleDB with
    comments := sampleDB.comments ++
      [{ id := 4, text := "lost", author_id := some 1, post_id := none },
       { id := 5, text := "ghost", author_id := some 1, post_id := some 99 }] }

/-- Constant name oracle: the `misc.get_name` fallback value. -/
def constName : Nat → String := fun _ => "User Name"

/-- Constant sentence oracle: the `misc.get_sentence` fallback value. -/
def constSentence : Nat → String := fun _ => "Random sentence"

/-- Constant description oracle: the `misc.get_description` fallback value. -/
def constDescription : Nat → String := fun _ => "Random description"

/-- A degenerate entropy oracle. -/
def zeroRand : Nat → Nat := fun _ => 0

/-- A date oracle returning the lower bound of the requested window; it
satisfies faker's contract on every well-formed window. -/
def loDate : Int → Int → Nat → Int := fun lo _ _ => lo

/- ## Generic list lemmas -/

/-- Two flatMaps agree when the functions agree on the list's members. -/
theorem flatMap_congr_mem {α β : Type} {l : List α} {f g : α → List β}
    (h : ∀ x ∈ l, f x = g x) : l.flatMap f = l.flatMap g := by
  induction l with
  | nil => rfl
  | cons a t ih =>
    simp only [List.flatMap_cons]
    rw [h a (List.mem_cons_self a t), ih (fun x hx => h x (List.mem_cons_of_mem a hx))]

/-- Members on which the function returns `[]` can be filtered out of a
flatMap. -/
theorem flatMap_eq_flatMap_filter {α β : Type} (l : List α) (p : α → Bool)
    (f : α → List β) (h : ∀ x ∈ l, p x = false → f x = []) :
    l.flatMap f = (l.filter p).flatMap f := by
  induction l with
  | nil => rfl
  | cons a t ih =>
    have ih' := ih (fun x hx hpx => h x (List.mem_cons_of_mem a hx) hpx)
    cases hp : p a with
    | true =>
      rw [List.filter_cons_of_pos hp, List.flatMap_cons, List.flatMap_cons, ih']
    | false =>
      rw [List.filter_cons_of_neg (by simp [hp]), List.flatMap_cons,
        h a (List.mem_cons_self a t) hp, List.nil_append, ih']

/-- A flatMap of option-to-list coercions is a filterMap. -/
theorem flatMap_toList_eq_filterMap {α β : Type} (l : List α)
    (f : α → Option β) :
    l.flatMap (fun x => (f x).toList) = l.filterMap f := by
  induction l with
  | nil => rfl
  | cons a t ih =>
    cases hf : f a <;>
      simp [List.flatMap_cons, List.filterMap_cons, hf, ih]

/-- The length of a filterMap counts the members on which the function
succeeds. -/
theorem length_filterMap_eq_countP {α β : Type} (l : List α)
    (f : α → Option β) :
    (l.filterMap f).length = l.countP (fun x => (f x).isSome) := by
  induction l with
  | nil => rfl
  | cons a t ih =>
    cases hf : f a <;>
      simp [List.filterMap_cons, hf, List.countP_cons, ih]

/-- In a list whose keys are pairwise distinct, a predicate equivalent to
"has the key of the member a" filters to exactly that member. -/
theorem filter_pred_singleton {α : Type} (key : α → Nat) (q : α → Bool)
    {l : List α} (hnd : (l.map key).Nodup) {a : α} (ha : a ∈ l)
    (hq : ∀ x, q x = true ↔ key x = key a) :
    l.filter q = [a] := by
  induction l with
  | nil => exact absurd ha (List.not_mem_nil a)
  | cons b t ih =>
    rw [List.map_cons, List.nodup_cons] at hnd
    rcases List.mem_cons.mp ha with rfl | hat
    · have hqa : q a = true := (hq a).mpr rfl
      have hnil : t.filter q = [] := by
        rw [List.filter_eq_nil_iff]
        intro x hx hqx
        exact hnd.1 (List.mem_map.mpr ⟨x, hx, (hq x).mp hqx⟩)
      simp [List.filter_cons, hqa, hnil]
    · have hqb : q b = false := by
        cases hqbv : q b with
        | false => rfl
        | true =>
          exact absurd
            (List.mem_map.mpr ⟨a, hat, ((hq b).mp hqbv).symm⟩) hnd.1
      simp [List.filter_cons, hqb, ih hnd.2 hat]

/-- In a list whose keys are pairwise distinct, a predicate equivalent to
"has the key of the member a" finds exactly that member. -/
theorem find_pred_unique {α : Type} (key : α → Nat) (q : α → Bool)
    {l : List α} (hnd : (l.map key).Nodup) {a : α} (ha : a ∈ l)
    (hq : ∀ x, q x = true ↔ key x = key a) :
    l.find? q = some a := by
  induction l with
  | nil => exact absurd ha (List.not_mem_nil a)
  | cons b t ih =>
    rw [List.map_cons, List.nodup_cons] at hnd
    rcases List.mem_cons.mp ha with rfl | hat
    · simp [List.find?_cons, (hq a).mpr rfl]
    · have hqb : q b = false := by
        cases hqbv : q b with
        | false => rfl
        | true =>
          exact absurd
            (List.mem_map.mpr ⟨a, hat, ((hq b).mp hqbv).symm⟩) hnd.1
      simp [List.find?_cons, hqb, ih hnd.2 hat]

/-- In a list whose keys are pairwise distinct, equal keys force equal
members. -/
theorem key_inj_of_nodup {α : Type} (key : α → Nat) {l : List α}
    (hnd : (l.map key).Nodup) {a b : α} (ha : a ∈ l) (hb : b ∈ l)
    (hk : key a = key b) : a = b := by
  induction l with
  | nil => exact absurd ha (List.not_mem_nil a)
  | cons c t ih =>
    rw [List.map_cons, List.nodup_cons] at hnd
    rcases List.mem_cons.mp ha with rfl | hat
    · rcases List.mem_cons.mp hb with rfl | hbt
      · rfl
      · exact absurd (List.mem_map.mpr ⟨b, hbt, hk.symm⟩) hnd.1
    · rcases List.mem_cons.mp hb with rfl | hbt
      · exact absurd (List.mem_map.mpr ⟨a, hat, hk⟩) hnd.1
      · exact ih hnd.2 hat hbt

/-- Pointwise sums distribute over list sums. -/
theorem sum_map_add {α : Type} (l : List α) (f g : α → Nat) :
    (l.map (fun x => f x + g x)).sum = (l.map f).sum + (l.map g).sum := by
  induction l with
  | nil => rfl
  | cons a t ih => simp [ih]; omega

/-- Counting over the two halves of a filter partition counts the whole
list. -/
theorem countP_filter_add {α : Type} (l : List α) (p q : α → Bool) :
    (l.filter q).countP p + (l.filter (fun x => !(q x))).countP p
      = l.countP p := by
  induction l with
  | nil => rfl
  | cons a t ih =>
    cases hq : q a <;> cases hp : p a <;>
      simp [List.filter_cons, hq, hp, List.countP_cons, ← ih] <;> omega

/-- Summing a per-group count over a duplicate-free list of groups that
covers the list counts the whole list. -/
theorem countP_partition_aux {α β : Type} [BEq β] [LawfulBEq β]
    (g : α → β) (p : α → Bool) (dates : List β) (hnd : dates.Nodup)
    (l : List α) (hcov : ∀ x ∈ l, g x ∈ dates) :
    (dates.map (fun d => (l.filter (fun x => g x == d)).countP p)).sum
      = l.countP p := by
  induction dates generalizing l with
  | nil =>
    cases l with
    | nil => rfl
    | cons a t => exact absurd (hcov a (List.mem_cons_self a t)) (List.not_mem_nil _)
  | cons d ds ih =>
    rw [List.nodup_cons] at hnd
    have step : ∀ d' ∈ ds,
        l.filter (fun x => g x == d')
          = (l.filter (fun x => !(g x == d))).filter (fun x => g x == d') := by
      intro d' hd'
      rw [List.filter_filter]
      refine (List.filter_congr ?_).symm
      intro x _
      cases hx : (g x == d') with
      | false => simp
      | true =>
        have hgx : g x = d' := by simpa using hx
        have hne : ¬(g x == d) = true := by
          simp only [beq_iff_eq, hgx]
          intro h
          exact hnd.1 (h ▸ hd')
        simp [hne]
    have hmap : ds.map (fun d' => (l.filter (fun x => g x == d')).countP p)
        = ds.map (fun d' =>
            ((l.filter (fun x => !(g x == d))).filter
              (fun x => g x == d')).countP p) :=
      List.map_congr_left (fun d' hd' => by rw [step d' hd'])
    have hcov' : ∀ x ∈ l.filter (fun x => !(g x == d)), g x ∈ ds := by
      intro x hx
      rcases List.mem_filter.mp hx with ⟨hxl, hxd⟩
      rcases List.mem_cons.mp (hcov x hxl) with h | h
      · simp [h] at hxd
      · exact h
    calc (((d :: ds).map
            (fun d' => (l.filter (fun x => g x == d')).countP p)).sum)
        = (l.filter (fun x => g x == d)).countP p
            + (ds.map (fun d' =>
                (l.filter (fun x => g x == d')).countP p)).sum := by
          simp
      _ = (l.filter (fun x => g x == d)).countP p
            + (l.filter (fun x => !(g x == d))).countP p := by
          rw [hmap, ih hnd.2 _ hcov']
      _ = l.countP p := countP_filter_add l p (fun x => g x == d)

/-- Summing a per-date count over the deduplicated date list counts the
whole list. -/
theorem countP_partition {α β : Type} [DecidableEq β] [BEq β] [LawfulBEq β]
    (l : List α) (g : α → β) (p : α → Bool) :
    (((l.map g).dedup).map
        (fun d => (l.filter (fun x => g x == d)).countP p)).sum
      = l.countP p :=
  countP_partition_aux g p ((l.map g).dedup) (List.nodup_dedup _) l
    (fun x hx => List.mem_dedup.mpr (List.mem_map.mpr ⟨x, hx, rfl⟩))

/-- On a non-empty list, `random.choice` always returns a member. -/
theorem random_choice_mem {lst : List Nat} (h : lst ≠ []) (r : Nat) :
    ∃ v, random_choice lst r = some v ∧ v ∈ lst := by
  have hlen : 0 < lst.length := List.length_pos.mpr h
  have hlt : r % lst.length < lst.length := Nat.mod_lt _ hlen
  exact ⟨lst[r % lst.length],
    by simp [random_choice, List.getElem?_eq_getElem hlt],
    List.getElem_mem hlt⟩

/- ## Claim C6: schema creation seeds the fixed lookup rows; a second call
     is a caught error leaving the store as after the first call -/

/-- C6: on a fresh store `create_tables` produces exactly the 5 event_type
rows {1:login, 2:comment, 3:create_post, 4:delete_post, 5:logout} and the 3
space_type rows {1:global, 2:blog, 3:post}; invoking it again on the
resulting store fails with the `sqlite3.OperationalError` that
`src/main.py` catches and reports as the non-fatal "Tables already exist"
condition, and — the failing statement being the very first `CREATE TABLE`
— no row of either database is touched, so all row counts stay as after the
first call. -/
theorem create_tables_seeds_and_second_call_fails :
    ∃ db1, create_tables initialState = Except.ok db1 ∧
      db1.event_types
        = [(1, "login"), (2, "comment"), (3, "create_post"),
           (4, "delete_post"), (5, "logout")] ∧
      db1.space_types = [(1, "global"), (2, "blog"), (3, "post")] ∧
      db1.event_types.length = 5 ∧
      db1.space_types.length = 3 ∧
      create_tables db1
        = Except.error "sqlite3.OperationalError: table users already exists" :=
  ⟨emptyTablesDB, rfl, by decide, by decide, by decide, by decide, rfl⟩

/- ## Claim C4: fill_users inserts exactly N rows with derived emails -/

/-- C4 counterexample: with N = 0 the generated statement is
`INSERT INTO main.users (email, login) VALUES ;`, a SQL syntax error raised
by `cursor.execute`, instead of an insertion of zero rows. -/
theorem fill_users_zero_raises :
    fill_users usersOnlyDB 0 constName
      = Except.error "sqlite3.OperationalError: syntax error" := rfl

/-- C4 (amended to N ≥ 1): `fill_users N` appends exactly N new user rows,
one per generated name; when every generated login is non-empty each new
row has a non-empty login and an email equal to the login lowercased with
every space replaced by an underscore, concatenated with
`"@example.com"`. -/
theorem fill_users_inserts_count_rows (db : DBState) (count : Nat)
    (names : Nat → String) (hc : 1 ≤ count) (hn : ∀ i, names i ≠ "") :
    ∃ rows, fill_users db count names
        = Except.ok { db with users := db.users ++ rows } ∧
      rows.length = count ∧
      ∀ r ∈ rows, r.login ≠ "" ∧
        r.email = (r.login.toLower.replace " " "_") ++ "@example.com" := by
  have hne : ¬count = 0 := by omega
  refine ⟨(List.range count).map (fun i =>
    { id := nextId (db.users.map (fun u => u.id)) + i,
      email := ((names i).toLower.replace " " "_") ++ "@example.com",
      login := names i : UserRow }), ?_, ?_, ?_⟩
  · simp [fill_users, hne]
  · simp
  · intro r hr
    rcases List.mem_map.mp hr with ⟨i, _, rfl⟩
    exact ⟨hn i, rfl⟩

/-- C4 witness: the amended theorem applied to a concrete store, count 2
and the constant fallback name generator. -/
theorem fill_users_inserts_count_rows_witness :
    1 ≤ 2 ∧ (∀ i : Nat, constName i ≠ "") ∧
    ∃ rows, fill_users usersOnlyDB 2 constName
        = Except.ok { usersOnlyDB with users := usersOnlyDB.users ++ rows } ∧
      rows.length = 2 ∧
      ∀ r ∈ rows, r.login ≠ "" ∧
        r.email = (r.login.toLower.replace " " "_") ++ "@example.com" :=
  ⟨by decide, by intro i; unfold constName; decide,
    fill_users_inserts_count_rows usersOnlyDB 2 constName (by decide)
      (by intro i; unfold constName; decide)⟩

/- ## Claim C3: later-stage fills crash on empty parent tables -/

/-- C3: with the required parent tables empty, every later-stage fill
raises an unhandled exception instead of inserting zero rows or reporting
an explicit no-parent-rows condition.  `fill_blogs`, `fill_posts` and
`fill_comments` hit `random.choice` on an empty id list (`IndexError`,
caught nowhere in `src/main.py`), and `fill_logs_login_logout` builds an
empty `VALUES` clause whose execution raises
`sqlite3.OperationalError`. -/
theorem empty_parent_fills_raise :
    fill_blogs emptyTablesDB 1 constSentence constDescription zeroRand
      = Except.error "IndexError: cannot choose from an empty sequence" ∧
    fill_posts emptyTablesDB 1 0 constSentence constDescription zeroRand
        zeroRand zeroRand loDate
      = Except.error "IndexError: cannot choose from an empty sequence" ∧
    fill_posts usersOnlyDB 1 0 constSentence constDescription zeroRand
        zeroRand zeroRand loDate
      = Except.error "IndexError: cannot choose from an empty sequence" ∧
    fill_comments usersOnlyDB 1 0 constDescription zeroRand zeroRand
        zeroRand loDate
      = Except.error "IndexError: cannot choose from an empty sequence" ∧
    fill_logs_login_logout emptyTablesDB true 0 loDate
      = Except.error "sqlite3.OperationalError: syntax error" :=
  ⟨rfl, rfl, rfl, rfl, rfl⟩

/- ## Claim C7: unknown login yields empty reports -/

/-- C7: for any state and any login matching no user row, both report
queries return the empty list rather than an error: the comments query's
join against `users` never matches, and the actions query's scalar subquery
yields SQL NULL, which `lgs.user_id == NULL` never matches. -/
theorem unknown_login_reports_empty (db : DBState) (login : String)
    (h : ∀ u ∈ db.users, u.login ≠ login) :
    get_user_comments_info db login = [] ∧
    get_user_actions_info db login = [] := by
  constructor
  · simp only [get_user_comments_info]
    rw [List.flatMap_eq_nil_iff]
    intro c hc
    simp only [commentRows]
    rw [List.flatMap_eq_nil_iff]
    intro usr husr
    rw [List.flatMap_eq_nil_iff]
    intro pst hpst
    have husers : usr ∈ db.users := (List.mem_filter.mp husr).1
    have hne : (usr.login == login) = false :=
      beq_eq_false_iff_ne.mpr (h usr husers)
    simp [hne]
  · simp only [get_user_actions_info]
    have hfind : db.users.find? (fun u => u.login == login) = none := by
      rw [List.find?_eq_none]
      intro u hu
      simp [h u hu]
    rw [hfind]

/-- C7 witness: both queries applied to the populated sample store with a
login held by no user. -/
theorem unknown_login_reports_empty_witness :
    (∀ u ∈ sampleDB.users, u.login ≠ "nonexistent") ∧
    get_user_comments_info sampleDB "nonexistent" = [] ∧
    get_user_actions_info sampleDB "nonexistent" = [] :=
  ⟨by decide, unknown_login_reports_empty sampleDB "nonexistent" (by decide)⟩

/- ## Claim C9: blog owner ids come from the users existing at call time -/

/-- C9: with at least one user and K ≥ 1, `fill_blogs K` succeeds, leaves
the existing rows untouched, appends exactly K blog rows, and every new
row's `owner_id` is a member of the user id set read fresh from the users
table immediately before generation (each one picked by `random.choice`
over that set). -/
theorem fill_blogs_owner_ids_from_existing_users (db : DBState)
    (count : Nat) (names descs : Nat → String) (rands : Nat → Nat)
    (hu : db.users ≠ []) (hc : 1 ≤ count) :
    ∃ db', fill_blogs db count names descs rands = Except.ok db' ∧
      db'.users = db.users ∧
      db'.blogs.length = db.blogs.length + count ∧
      db'.blogs.take db.blogs.length = db.blogs ∧
      ∀ b ∈ db'.blogs.drop db.blogs.length,
        ∃ uid, b.owner_id = some uid ∧ uid ∈ db.users.map (fun u => u.id) := by
  have hids : db.users.map (fun u => u.id) ≠ [] := by
    cases hus : db.users with
    | nil => exact absurd hus hu
    | cons a t => simp
  have hcond : ¬(db.users.map (fun u => u.id) = [] ∧ 0 < count) :=
    fun h => hids h.1
  have hne : ¬count = 0 := by omega
  refine ⟨{ db with blogs := db.blogs ++ (List.range count).map (fun i =>
      { id := nextId (db.blogs.map (fun b => b.id)) + i,
        owner_id := random_choice (db.users.map (fun u => u.id)) (rands i),
        name := names i,
        description := descs i : BlogRow }) }, ?_, rfl, ?_, ?_, ?_⟩
  · simp only [fill_blogs]
    rw [if_neg hcond, if_neg hne]
  · simp
  · exact List.take_left _ _
  · intro b hb
    rw [List.drop_left] at hb
    rcases List.mem_map.mp hb with ⟨i, _, rfl⟩
    rcases random_choice_mem hids (rands i) with ⟨v, hv, hvmem⟩
    exact ⟨v, hv, hvmem⟩

/-- C9 witness: the theorem applied to a concrete store with two users,
one new blog and concrete oracles. -/
theorem fill_blogs_owner_ids_witness :
    usersOnlyDB.users ≠ [] ∧ 1 ≤ 1 ∧
    ∃ db', fill_blogs usersOnlyDB 1 constSentence constDescription zeroRand
        = Except.ok db' ∧
      db'.users = usersOnlyDB.users ∧
      db'.blogs.length = usersOnlyDB.blogs.length + 1 ∧
      db'.blogs.take usersOnlyDB.blogs.length = usersOnlyDB.blogs ∧
      ∀ b ∈ db'.blogs.drop usersOnlyDB.blogs.length,
        ∃ uid, b.owner_id = some uid ∧
          uid ∈ usersOnlyDB.users.map (fun u => u.id) :=
  ⟨by decide, by decide,
    fill_blogs_owner_ids_from_existing_users usersOnlyDB 1 constSentence
      constDescription zeroRand (by decide) (by decide)⟩

/- ## Claim C8: one login/logout log row per existing user per invocation -/

/-- Unfolding of a successful `fill_logs_login_logout` call: with at least
one user it appends one log row per user id, in users-table order. -/
theorem fill_logs_login_logout_ok (db : DBState) (b : Bool) (now : Int)
    (dO : Int → Int → Nat → Int) (hu : db.users ≠ []) :
    fill_logs_login_logout db b now dO = Except.ok { db with
      logs := db.logs ++ (db.users.map (fun u => u.id)).enum.map (fun pr =>
        { datetime := dO (if b then now - 5 * day else now)
                         (if b then now else now + 5 * day) pr.1,
          user_id := some pr.2,
          space_type_id := some 1,
          event_type_id := some (if b then 1 else 5) : LogRow }) } := by
  have hids : db.users.map (fun u => u.id) ≠ [] := by
    cases hus : db.users with
    | nil => exact absurd hus hu
    | cons a t => simp
  simp only [fill_logs_login_logout]
  rw [if_neg hids]

/-- Mapping the second projection with `some` over an enumeration recovers
the list mapped with `some`. -/
theorem enum_map_some_snd {α : Type} (l : List α) :
    l.enum.map (fun pr => some pr.2) = l.map some := by
  have h1 : l.enum.map (fun pr => some pr.2)
      = (l.enum.map Prod.snd).map some := by
    rw [List.map_map]
    rfl
  rw [h1, List.enum_map_snd]

/-- Counting a mapped list under a predicate that is constant on the image
of the mapping. -/
theorem countP_map_const {α β : Type} (l : List α) (f : α → β) (p : β → Bool)
    (c : Bool) (h : ∀ a, p (f a) = c) :
    (l.map f).countP p = if c then l.length else 0 := by
  cases c with
  | true =>
    have hall : ∀ a ∈ l.map f, p a = true := by
      intro a ha
      rcases List.mem_map.mp ha with ⟨x, _, rfl⟩
      exact h x
    rw [List.countP_eq_length.mpr hall, List.length_map]
    rfl
  | false =>
    have hz : ∀ a ∈ l.map f, ¬p a = true := by
      intro a ha
      rcases List.mem_map.mp ha with ⟨x, _, rfl⟩
      simp [h x]
    rw [List.countP_eq_zero.mpr hz]
    rfl

/-- One successful `fill_logs_login_logout` call adds `users.length` rows of
the selected event type and none of the other. -/
theorem fill_logs_login_logout_counts (db : DBState) (b : Bool) (now : Int)
    (dO : Int → Int → Nat → Int) (hu : db.users ≠ []) :
    ∃ db1, fill_logs_login_logout db b now dO = Except.ok db1 ∧
      db1.users = db.users ∧
      db1.logs.countP (fun l => l.event_type_id == some 1)
        = db.logs.countP (fun l => l.event_type_id == some 1)
          + (if b then db.users.length else 0) ∧
      db1.logs.countP (fun l => l.event_type_id == some 5)
        = db.logs.countP (fun l => l.event_type_id == some 5)
          + (if b then 0 else db.users.length) := by
  refine ⟨_, fill_logs_login_logout_ok db b now dO hu, rfl, ?_, ?_⟩ <;>
    cases b
  · simp only [List.countP_append]
    rw [countP_map_const _ _ _ false (fun pr => rfl)]
    rfl
  · simp only [List.countP_append]
    rw [countP_map_const _ _ _ true (fun pr => rfl), List.enum_length,
      List.length_map]
    rfl
  · simp only [List.countP_append]
    rw [countP_map_const _ _ _ true (fun pr => rfl), List.enum_length,
      List.length_map]
    rfl
  · simp only [List.countP_append]
    rw [countP_map_const _ _ _ false (fun pr => rfl)]
    rfl

/-- Iterating the login+logout pair n times adds n · users.length rows of
each of the two event types. -/
theorem fill_login_logout_pairs_counts (n : Nat) (db : DBState) (now : Int)
    (dO : Int → Int → Nat → Int) (hu : db.users ≠ []) :
    ∃ db2, fill_login_logout_pairs db n now dO = Except.ok db2 ∧
      db2.users = db.users ∧
      db2.logs.countP (fun l => l.event_type_id == some 1)
        = db.logs.countP (fun l => l.event_type_id == some 1)
          + n * db.users.length ∧
      db2.logs.countP (fun l => l.event_type_id == some 5)
        = db.logs.countP (fun l => l.event_type_id == some 5)
          + n * db.users.length := by
  induction n generalizing db with
  | zero => exact ⟨db, rfl, rfl, by simp, by simp⟩
  | succ m ih =>
    obtain ⟨db1, e1, us1, c11, c15⟩ :=
      fill_logs_login_logout_counts db true now dO hu
    have hu1 : db1.users ≠ [] := by rw [us1]; exact hu
    obtain ⟨db2, e2, us2, c21, c25⟩ :=
      fill_logs_login_logout_counts db1 false now dO hu1
    have hu2 : db2.users ≠ [] := by rw [us2, us1]; exact hu
    obtain ⟨db3, e3, us3, c31, c35⟩ := ih db2 hu2
    have hl2 : db2.users.length = db.users.length := by rw [us2, us1]
    refine ⟨db3, ?_, by rw [us3, us2, us1], ?_, ?_⟩
    · simp only [fill_login_logout_pairs, e1, e2]
      exact e3
    · have hl1 : db1.users.length = db.users.length := by rw [us1]
      rw [c31, c21, c11, hl2]
      simp [hl1]
      ring
    · have hl1 : db1.users.length = db.users.length := by rw [us1]
      rw [c35, c25, c15, hl2]
      simp [hl1]
      ring

/-- C8 counterexample: invoked on a store with zero users, the fill builds
an empty `VALUES` clause and `cursor.execute` raises, instead of inserting
zero rows ("one per currently-existing user"). -/
theorem fill_logs_login_logout_no_users_raises :
    fill_logs_login_logout initialState true 0 loDate
      = Except.error "sqlite3.OperationalError: syntax error" := rfl

/-- C8 (amended: provided at least one user exists at call time): one
invocation inserts exactly one log row per currently-existing user — space
type 1 (global), and event type 1 (login) with timestamp requested from the
window [now - 5 days, now] when `is_login`, else event type 5 (logout) with
timestamp requested from [now, now + 5 days] — and repeating the
login+logout pair n times adds n × user_count log rows of each of the two
kinds, not n in total. -/
theorem fill_logs_one_event_per_user (db : DBState) (b : Bool) (now : Int)
    (dO : Int → Int → Nat → Int) (n : Nat) (hu : db.users ≠ [])
    (hd : ∀ lo hi k, lo ≤ hi → lo ≤ dO lo hi k ∧ dO lo hi k ≤ hi) :
    (∃ db1, fill_logs_login_logout db b now dO = Except.ok db1 ∧
      db1.users = db.users ∧
      db1.logs.take db.logs.length = db.logs ∧
      (db1.logs.drop db.logs.length).map (fun l => l.user_id)
        = db.users.map (fun u => some u.id) ∧
      ∀ l ∈ db1.logs.drop db.logs.length,
        l.space_type_id = some 1 ∧
        l.event_type_id = some (if b then 1 else 5) ∧
        (if b then now - 5 * day else now) ≤ l.datetime ∧
        l.datetime ≤ (if b then now else now + 5 * day)) ∧
    (∃ db2, fill_login_logout_pairs db n now dO = Except.ok db2 ∧
      db2.logs.countP (fun l => l.event_type_id == some 1)
        = db.logs.countP (fun l => l.event_type_id == some 1)
          + n * db.users.length ∧
      db2.logs.countP (fun l => l.event_type_id == some 5)
        = db.logs.countP (fun l => l.event_type_id == some 5)
          + n * db.users.length) := by
  constructor
  · refine ⟨_, fill_logs_login_logout_ok db b now dO hu, rfl, ?_, ?_, ?_⟩
    · exact List.take_left _ _
    · rw [List.drop_left, List.map_map]
      have hcomp : ((fun l : LogRow => l.user_id) ∘ (fun pr : Nat × Nat =>
          ({ datetime := dO (if b then now - 5 * day else now)
                            (if b then now else now + 5 * day) pr.1,
             user_id := some pr.2, space_type_id := some 1,
             event_type_id := some (if b then 1 else 5) } : LogRow)))
          = fun pr : Nat × Nat => some pr.2 := rfl
      rw [hcomp, enum_map_some_snd, List.map_map]
      rfl
    · intro l hl
      rw [List.drop_left] at hl
      rcases List.mem_map.mp hl with ⟨pr, _, rfl⟩
      have hday : (0 : Int) < day := by decide
      cases b with
      | true =>
        have hle : now - 5 * day ≤ now := by omega
        obtain ⟨h1, h2⟩ := hd (now - 5 * day) now pr.1 hle
        exact ⟨rfl, rfl, by simpa using h1, by simpa using h2⟩
      | false =>
        have hle : now ≤ now + 5 * day := by omega
        obtain ⟨h1, h2⟩ := hd now (now + 5 * day) pr.1 hle
        exact ⟨rfl, rfl, by simpa using h1, by simpa using h2⟩
  · obtain ⟨db2, e2, _, c1, c5⟩ :=
      fill_login_logout_pairs_counts n db now dO hu
    exact ⟨db2, e2, c1, c5⟩

/-- C8 witness: the theorem applied to a two-user store with one iteration
of the login+logout pair and the window-respecting date oracle. -/
theorem fill_logs_one_event_per_user_witness :
    usersOnlyDB.users ≠ [] ∧
    (∃ db2, fill_login_logout_pairs usersOnlyDB 1 0 loDate = Except.ok db2 ∧
      db2.logs.countP (fun l => l.event_type_id == some 1)
        = usersOnlyDB.logs.countP (fun l => l.event_type_id == some 1)
          + 1 * usersOnlyDB.users.length ∧
      db2.logs.countP (fun l => l.event_type_id == some 5)
        = usersOnlyDB.logs.countP (fun l => l.event_type_id == some 5)
          + 1 * usersOnlyDB.users.length) :=
  ⟨by decide, (fill_logs_one_event_per_user usersOnlyDB true 0 loDate 1
      (by decide) (fun lo hi k h => ⟨le_refl lo, h⟩)).2⟩

/- ## Claim C5: companion log events of fill_posts -/

/-- Unfolding of a successful `fill_posts` call. -/
theorem fill_posts_ok (db : DBState) (count : Nat) (now : Int)
    (heads texts : Nat → String) (rU rB ri : Nat → Nat)
    (dO : Int → Int → Nat → Int)
    (hu : db.users ≠ []) (hb : db.blogs ≠ []) (hc : 0 < count) :
    fill_posts db count now heads texts rU rB ri dO = Except.ok { db with
      posts := db.posts ++ (List.range count).map (fun i =>
        { id := nextId (db.posts.map (fun p => p.id)) + i,
          header := heads i, text := texts i,
          author_id := random_choice (db.users.map (fun u => u.id)) (rU i),
          blog_id := random_choice (db.blogs.map (fun b => b.id)) (rB i)
          : PostRow }),
      logs := db.logs ++ (List.range count).flatMap (fun i =>
        { datetime := dO (now - 2 * day) now (2 * i),
          user_id := random_choice (db.users.map (fun u => u.id)) (rU i),
          space_type_id := some 2, event_type_id := some 3 : LogRow } ::
        (if ri i % 4 = 1 then
          [{ datetime := dO (now + day) (now + 4 * day) (2 * i + 1),
             user_id := random_choice (db.users.map (fun u => u.id)) (rU i),
             space_type_id := some 2, event_type_id := some 4 : LogRow }]
        else [])) } := by
  have hui : db.users.map (fun u => u.id) ≠ [] := by
    cases h : db.users with
    | nil => exact absurd h hu
    | cons a t => simp
  have hbi : db.blogs.map (fun b => b.id) ≠ [] := by
    cases h : db.blogs with
    | nil => exact absurd h hb
    | cons a t => simp
  have hcond : ¬((db.users.map (fun u => u.id) = []
      ∨ db.blogs.map (fun b => b.id) = []) ∧ 0 < count) :=
    fun h => h.1.elim hui hbi
  have hne : ¬count = 0 := by omega
  simp only [fill_posts]
  rw [if_neg hcond, if_neg hne]

/-- Summing an indicator over a list counts the elements satisfying it. -/
theorem sum_map_ite_one {α : Type} (l : List α) (p : α → Prop)
    [DecidablePred p] :
    (l.map (fun x => if p x then (1 : Nat) else 0)).sum
      = (l.filter (fun x => decide (p x))).length := by
  induction l with
  | nil => rfl
  | cons a t ih =>
    by_cases hp : p a
    · simp [List.filter_cons, hp, ih]
      omega
    · simp [List.filter_cons, hp, ih]

/-- C5 counterexample: on a concrete one-post run the companion
"create_post" log row carries `space_type_id = 2`, and the seeded
space_type table names id 2 "blog" and reserves id 3 for "post" — the
companion events are logged in space "blog", not space "post" as
claimed. -/
theorem fill_posts_space_counterexample :
    ∃ db', fill_posts sampleDB 1 0 constSentence constDescription zeroRand
        zeroRand zeroRand loDate = Except.ok db' ∧
      db'.logs.drop sampleDB.logs.length
        = [{ datetime := -172800, user_id := some 1,
             space_type_id := some 2, event_type_id := some 3 }] ∧
      (∀ l ∈ db'.logs.drop sampleDB.logs.length,
        l.event_type_id = some 3 ∧ l.space_type_id = some 2 ∧
        l.space_type_id ≠ some 3) ∧
      sampleDB.space_types.find? (fun pr => pr.2 == "post")
        = some (3, "post") ∧
      sampleDB.space_types.find? (fun pr => pr.2 == "blog")
        = some (2, "blog") :=
  ⟨_, rfl, by decide, by decide, by decide, by decide⟩

/-- Counting the always-present heads of a head-plus-optional-tail flatMap
when the predicate holds on every head and fails on every tail. -/
theorem countP_flatMap_cons_ite {α β : Type} (l : List α) (p : β → Bool)
    (hd tl : α → β) (c : α → Prop) [DecidablePred c]
    (hhd : ∀ a, p (hd a) = true) (htl : ∀ a, p (tl a) = false) :
    (l.flatMap (fun a => hd a :: (if c a then [tl a] else []))).countP p
      = l.length := by
  induction l with
  | nil => rfl
  | cons a t ih =>
    by_cases hca : c a <;>
      simp [List.flatMap_cons, List.countP_append, List.countP_cons, hca,
        hhd a, htl a, ih]

/-- Counting the optional tails of a head-plus-optional-tail flatMap when
the predicate fails on every head and holds on every tail. -/
theorem countP_flatMap_cons_ite_tail {α β : Type} (l : List α) (p : β → Bool)
    (hd tl : α → β) (c : α → Prop) [DecidablePred c]
    (hhd : ∀ a, p (hd a) = false) (htl : ∀ a, p (tl a) = true) :
    (l.flatMap (fun a => hd a :: (if c a then [tl a] else []))).countP p
      = (l.filter (fun a => decide (c a))).length := by
  induction l with
  | nil => rfl
  | cons a t ih =>
    by_cases hca : c a <;>
      simp [List.flatMap_cons, List.countP_append, List.countP_cons,
        List.filter_cons, hca, hhd a, htl a, ih]

/-- C5 (amended: the companion events are logged with space type 2, the
"blog" space, not the "post" space): with at least one user, at least one
blog, count ≥ 1 and a window-honouring date oracle, each generated post is
accompanied by exactly one create_post log event (event type 3, space type
2) timestamped between 2 days in the past and now, and — exactly when the
uniform draw from {0,1,2,3} equals 1, one value out of the four — an
additional delete_post log event (event type 4, space type 2) timestamped
between 1 and 4 days in the future; every companion event carries the
sampled author of one of the new posts. -/
theorem fill_posts_companion_logs (db : DBState) (count : Nat) (now : Int)
    (heads texts : Nat → String) (rU rB ri : Nat → Nat)
    (dO : Int → Int → Nat → Int)
    (hu : db.users ≠ []) (hb : db.blogs ≠ []) (hc : 1 ≤ count)
    (hd : ∀ lo hi k, lo ≤ hi → lo ≤ dO lo hi k ∧ dO lo hi k ≤ hi) :
    ∃ db', fill_posts db count now heads texts rU rB ri dO = Except.ok db' ∧
      db'.posts.length = db.posts.length + count ∧
      db'.logs.take db.logs.length = db.logs ∧
      (db'.logs.drop db.logs.length).countP
          (fun l => l.event_type_id == some 3) = count ∧
      (db'.logs.drop db.logs.length).countP
          (fun l => l.event_type_id == some 4)
        = ((List.range count).filter
            (fun i => decide (ri i % 4 = 1))).length ∧
      ((List.range 4).filter (fun r => decide (r % 4 = 1))).length = 1 ∧
      ∀ l ∈ db'.logs.drop db.logs.length,
        l.space_type_id = some 2 ∧
        (l.event_type_id = some 3 ∨ l.event_type_id = some 4) ∧
        (l.event_type_id = some 3 →
          now - 2 * day ≤ l.datetime ∧ l.datetime ≤ now) ∧
        (l.event_type_id = some 4 →
          now + day ≤ l.datetime ∧ l.datetime ≤ now + 4 * day) ∧
        (∃ p ∈ db'.posts.drop db.posts.length, l.user_id = p.author_id) := by
  have hday : (0 : Int) < day := by decide
  refine ⟨_,
    fill_posts_ok db count now heads texts rU rB ri dO hu hb (by omega),
    ?_, ?_, ?_, ?_, by decide, ?_⟩
  · simp
  · exact List.take_left _ _
  · rw [List.drop_left]
    rw [countP_flatMap_cons_ite _ _ _ _ (fun i => ri i % 4 = 1)
      (fun i => rfl) (fun i => rfl)]
    exact List.length_range count
  · rw [List.drop_left]
    rw [countP_flatMap_cons_ite_tail _ _ _ _ (fun i => ri i % 4 = 1)
      (fun i => rfl) (fun i => rfl)]
  · intro l hl
    rw [List.drop_left] at hl
    rcases List.mem_flatMap.mp hl with ⟨i, hi, hin⟩
    rcases List.mem_cons.mp hin with rfl | htail
    · refine ⟨rfl, Or.inl rfl, ?_, ?_, ?_⟩
      · intro _
        exact hd (now - 2 * day) now (2 * i) (by omega)
      · intro hcontra
        exact absurd (Option.some.inj hcontra) (by omega)
      · exact ⟨_, by rw [List.drop_left]; exact List.mem_map.mpr ⟨i, hi, rfl⟩,
          rfl⟩
    · by_cases hca : ri i % 4 = 1
      · rw [if_pos hca] at htail
        rcases List.mem_cons.mp htail with rfl | hnil
        · refine ⟨rfl, Or.inr rfl, ?_, ?_, ?_⟩
          · intro hcontra
            exact absurd (Option.some.inj hcontra) (by omega)
          · intro _
            exact hd (now + day) (now + 4 * day) (2 * i + 1) (by omega)
          · exact ⟨_,
              by rw [List.drop_left]; exact List.mem_map.mpr ⟨i, hi, rfl⟩,
              rfl⟩
        · exact absurd hnil (List.not_mem_nil l)
      · rw [if_neg hca] at htail
        exact absurd htail (List.not_mem_nil l)

/-- C5 witness: the amended theorem applied to the populated sample store,
one post, `now = 0` and concrete oracles. -/
theorem fill_posts_companion_logs_witness :
    sampleDB.users ≠ [] ∧ sampleDB.blogs ≠ [] ∧ 1 ≤ 1 ∧
    (∀ lo hi k, lo ≤ hi → lo ≤ loDate lo hi k ∧ loDate lo hi k ≤ hi) ∧
    (∃ db', fill_posts sampleDB 1 0 constSentence constDescription zeroRand
        zeroRand zeroRand loDate = Except.ok db' ∧
      db'.posts.length = sampleDB.posts.length + 1 ∧
      db'.logs.take sampleDB.logs.length = sampleDB.logs ∧
      (db'.logs.drop sampleDB.logs.length).countP
          (fun l => l.event_type_id == some 3) = 1 ∧
      (db'.logs.drop sampleDB.logs.length).countP
          (fun l => l.event_type_id == some 4)
        = ((List.range 1).filter
            (fun i => decide (zeroRand i % 4 = 1))).length ∧
      ((List.range 4).filter (fun r => decide (r % 4 = 1))).length = 1 ∧
      ∀ l ∈ db'.logs.drop sampleDB.logs.length,
        l.space_type_id = some 2 ∧
        (l.event_type_id = some 3 ∨ l.event_type_id = some 4) ∧
        (l.event_type_id = some 3 →
          (0 : Int) - 2 * day ≤ l.datetime ∧ l.datetime ≤ 0) ∧
        (l.event_type_id = some 4 →
          (0 : Int) + day ≤ l.datetime ∧ l.datetime ≤ 0 + 4 * day) ∧
        (∃ p ∈ db'.posts.drop sampleDB.posts.length,
          l.user_id = p.author_id)) :=
  ⟨by decide, by decide, by decide, fun lo hi k h => ⟨le_refl lo, h⟩,
    fill_posts_companion_logs sampleDB 1 0 constSentence constDescription
      zeroRand zeroRand zeroRand loDate (by decide) (by decide) (by decide)
      (fun lo hi k h => ⟨le_refl lo, h⟩)⟩

/- ## Claim C10: only comments whose inner joins resolve can appear -/

/-- C10: a comment whose `author_id` or `post_id` is NULL or references no
existing users/post row contributes no result row to
`get_user_comments_info` — even when its author carries the queried login —
and the whole report equals the comment scan restricted to join-resolvable
comments (the `Count` subquery inside each produced row still scans the raw
comment table). -/
theorem comments_report_only_joinable (db : DBState) (login : String) :
    (∀ c ∈ db.comments, joinable db c = false →
      commentRows db login c = []) ∧
    get_user_comments_info db login
      = (db.comments.filter (fun c => joinable db c)).flatMap
          (commentRows db login) := by
  have hnil : ∀ c ∈ db.comments, joinable db c = false →
      commentRows db login c = [] := by
    intro c _ hj
    simp only [joinable] at hj
    rcases Bool.and_eq_false_iff.mp hj with h | h
    · have hfil : db.users.filter (fun u => c.author_id == some u.id) = [] := by
        rw [List.filter_eq_nil_iff]
        exact List.any_eq_false.mp h
      simp only [commentRows, hfil]
      rfl
    · have hfil : db.posts.filter (fun p => c.post_id == some p.id) = [] := by
        rw [List.filter_eq_nil_iff]
        exact List.any_eq_false.mp h
      simp only [commentRows, hfil]
      rw [List.flatMap_eq_nil_iff]
      intro x _
      rfl
  refine ⟨hnil, ?_⟩
  simp only [get_user_comments_info]
  exact flatMap_eq_flatMap_filter db.comments (fun c => joinable db c)
    (commentRows db login) hnil

/-- C10 witness: in the sample store extended with a NULL-post comment and
a dangling-post comment, both authored by the queried user, each dangling
comment is unjoinable and contributes no row, and the full report equals
the restricted scan. -/
theorem comments_report_only_joinable_witness :
    joinable danglingDB
        { id := 4, text := "lost", author_id := some 1, post_id := none }
      = false ∧
    commentRows danglingDB "alice"
        { id := 4, text := "lost", author_id := some 1, post_id := none }
      = [] ∧
    get_user_comments_info danglingDB "alice"
      = (danglingDB.comments.filter (fun c => joinable danglingDB c)).flatMap
          (commentRows danglingDB "alice") :=
  ⟨by decide,
    (comments_report_only_joinable danglingDB "alice").1
      { id := 4, text := "lost", author_id := some 1, post_id := none }
      (by decide) (by decide),
    (comments_report_only_joinable danglingDB "alice").2⟩

/- ## Claim C1: shape of the comments report -/

/-- Under unique user and post ids, the join-produced rows of one comment
coincide with the spec-side description of that comment's row. -/
theorem commentRows_eq_spec (db : DBState) (login : String)
    (h1 : (db.users.map (fun u => u.id)).Nodup)
    (h2 : (db.posts.map (fun p => p.id)).Nodup) (c : CommentRow) :
    commentRows db login c = (specCommentsRow db login c).toList := by
  simp only [commentRows, specCommentsRow]
  cases hf : db.users.find? (fun u => c.author_id == some u.id) with
  | none =>
    have hfil : db.users.filter (fun u => c.author_id == some u.id) = [] := by
      rw [List.filter_eq_nil_iff]
      exact List.find?_eq_none.mp hf
    rw [hfil]
    rfl
  | some u =>
    have hu_mem : u ∈ db.users := List.mem_of_find?_eq_some hf
    have hau : c.author_id = some u.id := by
      simpa using List.find?_some hf
    have hfil : db.users.filter (fun x => c.author_id == some x.id) = [u] := by
      refine filter_pred_singleton (fun x => x.id) _ h1 hu_mem ?_
      intro x
      constructor
      · intro hx
        have hax : c.author_id = some x.id := by simpa using hx
        exact Option.some.inj (hax.symm.trans hau)
      · intro hx
        simp [hau, hx]
    rw [hfil]
    cases hg : db.posts.find? (fun p => c.post_id == some p.id) with
    | none =>
      have hfilp : db.posts.filter (fun p => c.post_id == some p.id) = [] := by
        rw [List.filter_eq_nil_iff]
        exact List.find?_eq_none.mp hg
      rw [hfilp]
      rfl
    | some p =>
      have hp_mem : p ∈ db.posts := List.mem_of_find?_eq_some hg
      have hpo : c.post_id = some p.id := by
        simpa using List.find?_some hg
      have hfilp : db.posts.filter (fun x => c.post_id == some x.id) = [p] := by
        refine filter_pred_singleton (fun x => x.id) _ h2 hp_mem ?_
        intro x
        constructor
        · intro hx
          have hax : c.post_id = some x.id := by simpa using hx
          exact Option.some.inj (hax.symm.trans hpo)
        · intro hx
          simp [hpo, hx]
      rw [hfilp]
      cases hlg : u.login == login with
      | true =>
        simp [hlg, commentCount, hpo]
        simpa using hlg
      | false =>
        simp [hlg]
        simpa using hlg

/-- Under unique user ids and a resolvable post reference, the spec-side
row exists exactly when the comment's author carries the queried login. -/
theorem specCommentsRow_isSome (db : DBState) (login : String)
    (h1 : (db.users.map (fun u => u.id)).Nodup)
    (h2 : (db.posts.map (fun p => p.id)).Nodup) (c : CommentRow)
    (hpost : ∃ p ∈ db.posts, c.post_id = some p.id) :
    (specCommentsRow db login c).isSome = commentByUser db login c := by
  simp only [specCommentsRow, commentByUser]
  obtain ⟨p, hp_mem, hpo⟩ := hpost
  have hg : db.posts.find? (fun x => c.post_id == some x.id) = some p := by
    refine find_pred_unique (fun x => x.id) _ h2 hp_mem ?_
    intro x
    constructor
    · intro hx
      have hax : c.post_id = some x.id := by simpa using hx
      exact Option.some.inj (hax.symm.trans hpo)
    · intro hx
      simp [hpo, hx]
  rw [hg]
  cases hf : db.users.find? (fun u => c.author_id == some u.id) with
  | none =>
    have hno := List.find?_eq_none.mp hf
    have hany : db.users.any
        (fun u => c.author_id == some u.id && u.login == login) = false := by
      rw [List.any_eq_false]
      intro u hu hcon
      rcases Bool.and_eq_true_iff.mp hcon with ⟨ha, _⟩
      exact hno u hu ha
    rw [hany]
    rfl
  | some u =>
    have hu_mem : u ∈ db.users := List.mem_of_find?_eq_some hf
    have hau : c.author_id = some u.id := by
      simpa using List.find?_some hf
    cases hlg : u.login == login with
    | true =>
      have hany : db.users.any
          (fun x => c.author_id == some x.id && x.login == login) = true := by
        rw [List.any_eq_true]
        exact ⟨u, hu_mem, by simp [hau, hlg]⟩
      rw [hany]
      simp [hlg]
    | false =>
      have hany : db.users.any
          (fun x => c.author_id == some x.id && x.login == login) = false := by
        rw [List.any_eq_false]
        intro x hx hcon
        rcases Bool.and_eq_true_iff.mp hcon with ⟨ha, hl⟩
        have hax : c.author_id = some x.id := by simpa using ha
        have hxid : x.id = u.id := Option.some.inj (hax.symm.trans hau)
        have hxu : x = u := key_inj_of_nodup (fun y => y.id) h1 hx hu_mem hxid
        rw [hxu, hlg] at hl
        exact Bool.noConfusion hl
      rw [hany]
      simp [hlg]

/-- C1: on a populated state (unique primary keys, every comment's post
reference resolvable — the invariants the fill engine maintains), the
comments report is exactly the spec-side description: one row per comment
row whose author carries the queried login, with no deduplication by post
(the length equals the count of matching comment rows), each row being
`(login, post_header, post_author_login, count)` where the count column
counts every comment row referencing that comment's post regardless of
author. -/
theorem get_user_comments_info_correct (db : DBState) (login : String)
    (h1 : (db.users.map (fun u => u.id)).Nodup)
    (h2 : (db.posts.map (fun p => p.id)).Nodup)
    (h3 : ∀ c ∈ db.comments, ∃ p ∈ db.posts, c.post_id = some p.id) :
    get_user_comments_info db login
      = db.comments.filterMap (specCommentsRow db login) ∧
    (get_user_comments_info db login).length
      = db.comments.countP (commentByUser db login) ∧
    ∀ row ∈ get_user_comments_info db login,
      row.1 = login ∧
      ∃ c ∈ db.comments, ∃ p ∈ db.posts, c.post_id = some p.id ∧
        row.2.1 = p.header ∧
        row.2.2.1 = postAuthorLogin db p ∧
        row.2.2.2 = db.comments.countP
          (fun c2 => c2.post_id == some p.id) := by
  have hpt : ∀ c ∈ db.comments,
      commentRows db login c = (specCommentsRow db login c).toList :=
    fun c _ => commentRows_eq_spec db login h1 h2 c
  have heq : get_user_comments_info db login
      = db.comments.filterMap (specCommentsRow db login) := by
    simp only [get_user_comments_info]
    rw [flatMap_congr_mem hpt]
    exact flatMap_toList_eq_filterMap db.comments (specCommentsRow db login)
  refine ⟨heq, ?_, ?_⟩
  · rw [heq, length_filterMap_eq_countP]
    refine List.countP_congr ?_
    intro c hc
    rw [specCommentsRow_isSome db login h1 h2 c (h3 c hc)]
  · intro row hrow
    rw [heq] at hrow
    rcases List.mem_filterMap.mp hrow with ⟨c, hc, hspec⟩
    simp only [specCommentsRow] at hspec
    cases hf : db.users.find? (fun u => c.author_id == some u.id) with
    | none =>
      rw [hf] at hspec
      cases hg : db.posts.find? (fun p => c.post_id == some p.id) with
      | none => rw [hg] at hspec; exact Option.noConfusion hspec
      | some p => rw [hg] at hspec; exact Option.noConfusion hspec
    | some u =>
      rw [hf] at hspec
      cases hg : db.posts.find? (fun p => c.post_id == some p.id) with
      | none => rw [hg] at hspec; exact Option.noConfusion hspec
      | some p =>
        rw [hg] at hspec
        have hspec2 : (if (u.login == login) = true then
            some (u.login, p.header, postAuthorLogin db p,
              db.comments.countP (fun c2 => c2.post_id == some p.id))
          else none) = some row := hspec
        cases hlg : u.login == login with
        | false =>
          rw [hlg] at hspec2
          simp at hspec2
        | true =>
          rw [if_pos hlg] at hspec2
          obtain rfl := Option.some.inj hspec2
          have hul : u.login = login := by simpa using hlg
          exact ⟨hul, c, hc, p, List.mem_of_find?_eq_some hg,
            by simpa using List.find?_some hg, rfl, rfl, rfl⟩

/-- C1 witness: the theorem applied to the populated sample store and the
login "alice", whose user authored two of the three comments on the single
post. -/
theorem get_user_comments_info_correct_witness :
    (sampleDB.users.map (fun u => u.id)).Nodup ∧
    (sampleDB.posts.map (fun p => p.id)).Nodup ∧
    (∀ c ∈ sampleDB.comments, ∃ p ∈ sampleDB.posts,
      c.post_id = some p.id) ∧
    (get_user_comments_info sampleDB "alice").length
      = sampleDB.comments.countP (commentByUser sampleDB "alice") :=
  ⟨by decide, by decide, by decide,
    (get_user_comments_info_correct sampleDB "alice" (by decide) (by decide)
      (by decide)).2.1⟩

/- ## Claim C2: shape of the per-date actions report -/

/-- The first components of rows built from a date list recover it. -/
theorem map_mk_fst {b c d : Type} (dates : List Int)
    (f1 : Int → b) (f2 : Int → c) (f3 : Int → d) :
    ((dates.map (fun x => (x, f1 x, f2 x, f3 x))).map (fun r => r.1))
      = dates := by
  induction dates with
  | nil => rfl
  | cons a t ih => simp [ih]

/-- Summing the two middle components of rows built from a date list. -/
theorem map_mk_sum {b : Type} (dates : List Int)
    (f1 f2 : Int → Nat) (f3 : Int → b) :
    ((dates.map (fun x => (x, f1 x, f2 x, f3 x))).map
        (fun r => r.2.1 + r.2.2.1))
      = dates.map (fun x => f1 x + f2 x) := by
  induction dates with
  | nil => rfl
  | cons a t ih => simp [ih]

/-- C2: when the login resolves (via the LIMIT 1 scalar subquery — the
first matching user when several share the login) to user u, the report
has one row per distinct calendar date among u's log rows — so dates with
no matching log rows produce no row — each row carrying the counts of u's
event-type-1 rows (Logins), event-type-5 rows (Logouts) and rows with
space_type_id greater than 1 (Actions) on that date; and summing
Logins + Logouts over all returned rows equals u's total number of
login-type plus logout-type log rows. -/
theorem get_user_actions_info_spec (db : DBState) (login : String)
    (u : UserRow)
    (hfind : db.users.find? (fun x => x.login == login) = some u) :
    ((get_user_actions_info db login).map (fun r => r.1)).Nodup ∧
    (∀ r ∈ get_user_actions_info db login,
      ∃ l ∈ db.logs.filter (fun l => l.user_id == some u.id),
        dateOf l.datetime = r.1) ∧
    (∀ l ∈ db.logs.filter (fun l => l.user_id == some u.id),
      ∃ r ∈ get_user_actions_info db login, r.1 = dateOf l.datetime) ∧
    (∀ r ∈ get_user_actions_info db login,
      r.2.1 = ((db.logs.filter (fun l => l.user_id == some u.id)).filter
          (fun l => dateOf l.datetime == r.1)).countP
          (fun l => l.event_type_id == some 1) ∧
      r.2.2.1 = ((db.logs.filter (fun l => l.user_id == some u.id)).filter
          (fun l => dateOf l.datetime == r.1)).countP
          (fun l => l.event_type_id == some 5) ∧
      r.2.2.2 = ((db.logs.filter (fun l => l.user_id == some u.id)).filter
          (fun l => dateOf l.datetime == r.1)).countP isActionRow) ∧
    ((get_user_actions_info db login).map
        (fun r => r.2.1 + r.2.2.1)).sum
      = (db.logs.filter (fun l => l.user_id == some u.id)).countP
          (fun l => l.event_type_id == some 1)
        + (db.logs.filter (fun l => l.user_id == some u.id)).countP
          (fun l => l.event_type_id == some 5) := by
  have hred : get_user_actions_info db login
      = (((db.logs.filter (fun l => l.user_id == some u.id)).map
            (fun l => dateOf l.datetime)).dedup).map (fun d =>
          (d,
           ((db.logs.filter (fun l => l.user_id == some u.id)).filter
              (fun l => dateOf l.datetime == d)).countP
              (fun l => l.event_type_id == some 1),
           ((db.logs.filter (fun l => l.user_id == some u.id)).filter
              (fun l => dateOf l.datetime == d)).countP
              (fun l => l.event_type_id == some 5),
           ((db.logs.filter (fun l => l.user_id == some u.id)).filter
              (fun l => dateOf l.datetime == d)).countP isActionRow)) := by
    simp only [get_user_actions_info]
    rw [hfind]
  rw [hred]
  refine ⟨?_, ?_, ?_, ?_, ?_⟩
  · rw [map_mk_fst]
    exact List.nodup_dedup _
  · intro r hr
    rcases List.mem_map.mp hr with ⟨d, hd, rfl⟩
    rcases List.mem_map.mp (List.mem_dedup.mp hd) with ⟨l, hl, hdl⟩
    exact ⟨l, hl, hdl⟩
  · intro l hl
    have hd : dateOf l.datetime
        ∈ ((db.logs.filter (fun l => l.user_id == some u.id)).map
            (fun l => dateOf l.datetime)).dedup :=
      List.mem_dedup.mpr (List.mem_map.mpr ⟨l, hl, rfl⟩)
    exact ⟨_, List.mem_map.mpr ⟨_, hd, rfl⟩, rfl⟩
  · intro r hr
    rcases List.mem_map.mp hr with ⟨d, _, rfl⟩
    exact ⟨rfl, rfl, rfl⟩
  · rw [map_mk_sum, sum_map_add]
    rw [countP_partition (db.logs.filter (fun l => l.user_id == some u.id))
        (fun l => dateOf l.datetime) (fun l => l.event_type_id == some 1),
      countP_partition (db.logs.filter (fun l => l.user_id == some u.id))
        (fun l => dateOf l.datetime) (fun l => l.event_type_id == some 5)]

/-- C2 witness: the theorem applied to the populated sample store and the
login "alice": her three log rows span two calendar dates, and the Logins
plus Logouts totals over the two returned rows give her one login-type and
one logout-type row. -/
theorem get_user_actions_info_spec_witness :
    sampleDB.users.find? (fun x => x.login == "alice")
      = some { id := 1, email := "alice@example.com", login := "alice" } ∧
    ((get_user_actions_info sampleDB "alice").map
        (fun r => r.2.1 + r.2.2.1)).sum
      = (sampleDB.logs.filter (fun l => l.user_id == some 1)).countP
          (fun l => l.event_type_id == some 1)
        + (sampleDB.logs.filter (fun l => l.user_id == some 1)).countP
          (fun l => l.event_type_id == some 5) :=
  ⟨by decide,
    (get_user_actions_info_spec sampleDB "alice"
      { id := 1, email := "alice@example.com", login := "alice" }
      (by decide)).2.2.2.2⟩
